import Mathlib

/-!
Verification of the pygreeks Black-Scholes pricing / Greeks / implied-volatility
engine (`pygreeks/pygreeks.py`).

The Python code works on scalar floats (wrapped in one-element pytorch tensors);
we embed those scalars as real numbers.  The external collaborators are embedded
as follows:

* `torch.distributions.Normal(0, 1).cdf` is the standard normal CDF, embedded
  as `Phi` below (an explicit Gaussian integral).
* pytorch reverse-mode autodiff (`backward` / `torch.autograd.grad`) extracts
  exact derivatives of the evaluated expression with respect to a leaf tensor;
  the `.grad` field of a leaf is populated only when the leaf was created with
  `requires_grad=True`, otherwise it stays `None`.  We embed `.grad` reads as
  `Option ℝ`: `some` of the mathematical partial derivative (the Mathlib `deriv`
  of the function with all other arguments fixed) for tracked leaves, `none`
  for untracked ones.
* the scipy root finders (`optimize.brentq`, `optimize.newton`) and the
  py_vollib analytical IV / Greeks routines are third-party numerical
  algorithms; they enter the embedding as function parameters, so theorems
  about the surrounding control flow hold for any behaviour of those
  collaborators (hypotheses characterise them where a claim needs it).

Python exceptions are embedded as `Except String`; a bare `except:` handler
corresponds to matching on the `.error` branch.
-/

open MeasureTheory

namespace Pygreeks

/-- Standard normal CDF: the embedding of `torch.distributions.Normal(0, 1).cdf`. -/
noncomputable def Phi (x : ℝ) : ℝ :=
  (∫ t in Set.Iic x, Real.exp (-(t ^ 2) / 2)) / Real.sqrt (2 * Real.pi)

/-- `BASE_RATE = 0.0007` from the source. -/
noncomputable def BASE_RATE : ℝ := 0.0007

/-- Embedding of `kind[0].lower() == "c"`: `none` models the `IndexError`
raised when `kind` is the empty string; otherwise `some true` iff the first
character lowercases to `c` (the code treats every other kind as a put). -/
def classifyKind (kind : String) : Option Bool :=
  match kind.toList.head? with
  | none => none
  | some c => some (c.toLower == 'c')

/-- `d_1` from `blackScholes_pyTorch`. -/
noncomputable def d1 (S K dt sigma r : ℝ) : ℝ :=
  (Real.log (S / K) + (r + sigma ^ 2 / 2) * dt) / (sigma * Real.sqrt dt)

/-- `d_2` from `blackScholes_pyTorch`. -/
noncomputable def d2 (S K dt sigma r : ℝ) : ℝ :=
  d1 S K dt sigma r - sigma * Real.sqrt dt

/-- The two branches of `blackScholes_pyTorch` after the kind dispatch
(`true` = call branch, `false` = put branch). -/
noncomputable def bsPrice (isCall : Bool) (S K dt sigma r : ℝ) : ℝ :=
  match isCall with
  | true => S * Phi (d1 S K dt sigma r) - K * Real.exp (-r * dt) * Phi (d2 S K dt sigma r)
  | false => K * Real.exp (-r * dt) * Phi (-(d2 S K dt sigma r)) - S * Phi (-(d1 S K dt sigma r))

/-- Embedding of `blackScholes_pyTorch(kind, S_0, strike, time_to_expiry,
implied_vol, riskfree_rate)`.  The `isinstance` asserts are enforced by the
Lean types; an empty `kind` raises `IndexError` at `kind[0]`. -/
noncomputable def blackScholes_pyTorch (kind : String) (S K dt sigma r : ℝ) :
    Except String ℝ :=
  match classifyKind kind with
  | none => .error "IndexError: string index out of range"
  | some b => .ok (bsPrice b S K dt sigma r)

/-- Embedding of `optionNPV(kind, s0, k, t, sigma, r=BASE_RATE)`: the tensor
wrapping is the identity on the carried scalar. -/
noncomputable def optionNPV (kind : String) (s0 k t sigma : ℝ) (r : ℝ := BASE_RATE) :
    Except String ℝ :=
  blackScholes_pyTorch kind s0 k t sigma r

/-! ## Spec-side valuation (for the refinement claim)

These definitions follow the words of the spec: "d1 = (ln(S/K) + (r + sigma²/2)·T) /
(sigma·√T); d2 = d1 − sigma·√T.  Call value = S·Φ(d1) − K·e^(−rT)·Φ(d2);
Put value = K·e^(−rT)·Φ(−d2) − S·Φ(−d1), where Φ is the standard normal CDF."
They are compared with the source-side `bsPrice` above. -/

/-- Spec-side `d1`. -/
noncomputable def spec_d1 (S K T sigma r : ℝ) : ℝ :=
  (Real.log (S / K) + (r + sigma ^ 2 / 2) * T) / (sigma * Real.sqrt T)

/-- Spec-side `d2`. -/
noncomputable def spec_d2 (S K T sigma r : ℝ) : ℝ :=
  spec_d1 S K T sigma r - sigma * Real.sqrt T

/-- Spec-side call value `S·Φ(d1) − K·e^(−rT)·Φ(d2)`. -/
noncomputable def specCallValue (S K T sigma r : ℝ) : ℝ :=
  S * Phi (spec_d1 S K T sigma r) - K * Real.exp (-r * T) * Phi (spec_d2 S K T sigma r)

/-- Spec-side put value `K·e^(−rT)·Φ(−d2) − S·Φ(−d1)`. -/
noncomputable def specPutValue (S K T sigma r : ℝ) : ℝ :=
  K * Real.exp (-r * T) * Phi (-(spec_d2 S K T sigma r)) - S * Phi (-(spec_d1 S K T sigma r))

/-- Spec-side valuation, dispatched on call/put. -/
noncomputable def specValue (isCall : Bool) (S K T sigma r : ℝ) : ℝ :=
  match isCall with
  | true => specCallValue S K T sigma r
  | false => specPutValue S K T sigma r

lemma bsPrice_eq_specValue (b : Bool) (S K T sigma r : ℝ) :
    bsPrice b S K T sigma r = specValue b S K T sigma r := by
  cases b <;> rfl

/-- C1: for every kind whose first character (case-insensitively) is `c`
(this covers `"c"` and `"call"`) and positive S, K, T, sigma, r, the valuation
returns the call formula of the spec `S·Φ(d1) − K·e^(−rT)·Φ(d2)`, and for a kind
starting with `p` it returns the put formula of the spec
`K·e^(−rT)·Φ(−d2) − S·Φ(−d1)`, with Φ the standard normal CDF. -/
theorem C1_valuation_matches_spec (kind : String) (S K T sigma r : ℝ)
    (hS : 0 < S) (hK : 0 < K) (hT : 0 < T) (hsigma : 0 < sigma) (hr : 0 < r) :
    (classifyKind kind = some true →
      blackScholes_pyTorch kind S K T sigma r = .ok (specCallValue S K T sigma r)) ∧
    (classifyKind kind = some false →
      blackScholes_pyTorch kind S K T sigma r = .ok (specPutValue S K T sigma r)) := by
  constructor <;> intro h <;> simp [blackScholes_pyTorch, h] <;> rfl

/-- Witness for C1 at kind `"call"`/`"put"`, S = K = T = 1, sigma = 1, r = 1. -/
theorem C1_valuation_matches_spec_witness :
    ((classifyKind "call" = some true →
      blackScholes_pyTorch "call" 1 1 1 1 1 = .ok (specCallValue 1 1 1 1 1)) ∧
     (classifyKind "call" = some false →
      blackScholes_pyTorch "call" 1 1 1 1 1 = .ok (specPutValue 1 1 1 1 1))) ∧
    ((classifyKind "put" = some true →
      blackScholes_pyTorch "put" 1 1 1 1 1 = .ok (specCallValue 1 1 1 1 1)) ∧
     (classifyKind "put" = some false →
      blackScholes_pyTorch "put" 1 1 1 1 1 = .ok (specPutValue 1 1 1 1 1))) :=
  ⟨C1_valuation_matches_spec "call" 1 1 1 1 1 one_pos one_pos one_pos one_pos one_pos,
   C1_valuation_matches_spec "put" 1 1 1 1 1 one_pos one_pos one_pos one_pos one_pos⟩

/-! ## First-order Greeks via autodiff (`deriveGreeks1`)

The Python function wraps the five scalars as tensors with
`requires_grad=True` for `S_0`, `T`, `Sigma` (and `False` for `K`, `R`),
evaluates `blackScholes_pyTorch`, calls `npv.backward()`, and reads
`T.grad`, `S_0.grad`, `Sigma.grad`.  After one reverse pass, `X.grad` holds
the partial derivative of the evaluated expression with respect to `X` at the
given point, i.e. `deriv` of the valuation with all other arguments fixed. -/

/-- Embedding of `deriveGreeks1(kind, s0, k, t, sigma, r=BASE_RATE)`:
returns `(npv, theta, delta, vega)` with `theta = -T.grad / 365.25`,
`delta = S_0.grad`, `vega = Sigma.grad / 100`. -/
noncomputable def deriveGreeks1 (kind : String) (s0 k t sigma : ℝ)
    (r : ℝ := BASE_RATE) : Except String (ℝ × ℝ × ℝ × ℝ) :=
  match classifyKind kind with
  | none => .error "IndexError: string index out of range"
  | some b =>
    let npv := bsPrice b s0 k t sigma r
    let theta := -(deriv (fun x => bsPrice b s0 k x sigma r) t) / 365.25
    let delta := deriv (fun x => bsPrice b x k t sigma r) s0
    let vega := deriv (fun x => bsPrice b s0 k t x r) sigma / 100
    .ok (npv, theta, delta, vega)

/-- C2: for positive inputs and either kind, the first-order autodiff
strategy returns theta = −(∂NPV/∂T)/365.25, delta = ∂NPV/∂S and
vega = (∂NPV/∂sigma)/100, where the partial derivatives are those of the
claim-1 valuation function (`specValue`). -/
theorem C2_first_order_greeks (kind : String) (b : Bool) (s0 k t sigma r : ℝ)
    (hS : 0 < s0) (hK : 0 < k) (hT : 0 < t) (hsigma : 0 < sigma) (hr : 0 < r)
    (hkind : classifyKind kind = some b) :
    deriveGreeks1 kind s0 k t sigma r =
      .ok (specValue b s0 k t sigma r,
           -(deriv (fun x => specValue b s0 k x sigma r) t) / 365.25,
           deriv (fun x => specValue b x k t sigma r) s0,
           deriv (fun x => specValue b s0 k t x r) sigma / 100) := by
  cases b <;> · unfold deriveGreeks1; rw [hkind]; rfl

/-- Witness for C2 at kind `"call"`, s0 = k = t = sigma = r = 1. -/
theorem C2_first_order_greeks_witness :
    deriveGreeks1 "call" 1 1 1 1 1 =
      .ok (specValue true 1 1 1 1 1,
           -(deriv (fun x => specValue true 1 1 x 1 1) 1) / 365.25,
           deriv (fun x => specValue true x 1 1 1 1) 1,
           deriv (fun x => specValue true 1 1 1 x 1) 1 / 100) :=
  C2_first_order_greeks "call" true 1 1 1 1 1 one_pos one_pos one_pos one_pos
    one_pos rfl

/-! ## Second-order Greeks via autodiff (`deriveGreeks2`)

For each requested index `i`, `runForIdx(i)` builds the five leaf tensors
`[s0, k, t, sigma, r]` with `requires_grad = (slot == i)` (the "perf hack"),
computes `gradient = torch.autograd.grad(npv, calculateAll[i],
create_graph=True)` and calls `gradient.backward()`.  After that second pass,
`calculateAll[j].grad` is:

* `some` of the second derivative of the valuation in slot `i` when `j = i`
  (the only leaf being tracked), and
* `none` (Python `None`) when `j ≠ i`, because a leaf with
  `requires_grad=False` never receives a `.grad`.

The function then returns `calculateAll[i].grad` for `i ∈ {0, 3}`,
`calculateAll[2].grad / 365.25` for `i = 1`,
`calculateAll[3].grad / (100 * 365.25)` for `i = 2`, and
`calculateAll[3].grad` for `i = 4`; Python `None / float` raises `TypeError`. -/

/-- Value held in leaf slot `i` (`[s0, k, t, sigma, r][i]`). -/
noncomputable def slotValue (s0 k t sigma r : ℝ) (i : ℕ) : ℝ :=
  match i with
  | 0 => s0
  | 1 => k
  | 2 => t
  | 3 => sigma
  | _ => r

/-- The valuation as a function of leaf slot `i`, the other slots fixed. -/
noncomputable def slotPrice (b : Bool) (s0 k t sigma r : ℝ) (i : ℕ) : ℝ → ℝ :=
  match i with
  | 0 => fun x => bsPrice b x k t sigma r
  | 1 => fun x => bsPrice b s0 x t sigma r
  | 2 => fun x => bsPrice b s0 k x sigma r
  | 3 => fun x => bsPrice b s0 k t x r
  | _ => fun x => bsPrice b s0 k t sigma x

/-- Pure second derivative of the valuation with respect to slot `i`. -/
noncomputable def secondDeriv (b : Bool) (s0 k t sigma r : ℝ) (i : ℕ) : ℝ :=
  deriv (deriv (slotPrice b s0 k t sigma r i)) (slotValue s0 k t sigma r i)

/-- `calculateAll[j].grad` after `gradient.backward()` in `runForIdx(i)`:
only the slot-`i` leaf has `requires_grad=True`, so only it is populated. -/
noncomputable def gradAfterSecondBackward (b : Bool) (s0 k t sigma r : ℝ)
    (i j : ℕ) : Option ℝ :=
  if j = i then some (secondDeriv b s0 k t sigma r i) else none

/-- Embedding of `runForIdx(i)` from `deriveGreeks2`. -/
noncomputable def runForIdx (kind : String) (s0 k t sigma r : ℝ) (i : ℕ) :
    Except String (Option ℝ) :=
  if 5 ≤ i then .error "IndexError: list index out of range"
  else
    match classifyKind kind with
    | none => .error "IndexError: string index out of range"
    | some b =>
      if i = 0 ∨ i = 3 then .ok (gradAfterSecondBackward b s0 k t sigma r i i)
      else if i = 1 then
        match gradAfterSecondBackward b s0 k t sigma r 1 2 with
        | none => .error "TypeError: unsupported operand for /: NoneType and float"
        | some g => .ok (some (g / 365.25))
      else if i = 2 then
        match gradAfterSecondBackward b s0 k t sigma r 2 3 with
        | none => .error "TypeError: unsupported operand for /: NoneType and float"
        | some g => .ok (some (g / (100 * 365.25)))
      else .ok (gradAfterSecondBackward b s0 k t sigma r 4 3)

/-- Embedding of `deriveGreeks2(kind, s0, k, t, sigma, r=BASE_RATE, which=[0])`:
a list comprehension over `which`; the first raised exception propagates. -/
noncomputable def deriveGreeks2 (kind : String) (s0 k t sigma : ℝ)
    (r : ℝ := BASE_RATE) (which : List ℕ := [0]) :
    Except String (List (Option ℝ)) :=
  which.mapM (runForIdx kind s0 k t sigma r)

/-- C3 (code bug): at the concrete inputs of the spec, the default `which=[0]`
and an explicit `[0]` / `[3]` do return the pure second derivatives
(gamma, vomma), but the mixed-derivative indices are broken by the
`requires_grad = (slot == i)` perf hack: `which=[1]` and `which=[2]` raise
`TypeError` (the `.grad` they read back is `None`), and `which=[4]` silently
returns `None` instead of ∂²NPV/∂sigma∂r. -/
theorem C3_second_order_eval :
    deriveGreeks2 "call" 100 100 (30 / 365.25) 0.20 0.0007 [0] =
      .ok [some (secondDeriv true 100 100 (30 / 365.25) 0.20 0.0007 0)] ∧
    deriveGreeks2 "call" 100 100 (30 / 365.25) 0.20 0.0007 [3] =
      .ok [some (secondDeriv true 100 100 (30 / 365.25) 0.20 0.0007 3)] ∧
    deriveGreeks2 "call" 100 100 (30 / 365.25) 0.20 0.0007 [1] =
      .error "TypeError: unsupported operand for /: NoneType and float" ∧
    deriveGreeks2 "call" 100 100 (30 / 365.25) 0.20 0.0007 [2] =
      .error "TypeError: unsupported operand for /: NoneType and float" ∧
    deriveGreeks2 "call" 100 100 (30 / 365.25) 0.20 0.0007 [4] =
      .ok [none] :=
  ⟨rfl, rfl, rfl, rfl, rfl⟩

/-! ## Records and implied-volatility solvers

`Option` and `Greeks` are Python dataclasses; the `iv`/`npv`/`greeks` fields
default to `None`, embedded as `Option _` (the `Greeks.__post_init__` `unwrap`
of tensors is the identity on the embedded scalars).  The record is named
`OptionRecord` because `Option` is taken in Lean.

Python truthiness drives the control flow: `if not option.iv:` treats both
`None` and `0.0` as absent, embedded as `falsy` below. -/

/-- The `Greeks` dataclass (field order as in the source). -/
structure Greeks where
  theta : ℝ
  delta : ℝ
  gamma : ℝ
  vega : ℝ

/-- The `Option` dataclass. -/
structure OptionRecord where
  kind : String
  underlying : ℝ
  strike : ℝ
  expiry : ℝ
  iv : Option ℝ := none
  npv : Option ℝ := none
  greeks : Option Greeks := none

/-- Python truthiness test for an optional float: `None` and `0.0` are falsy. -/
noncomputable def falsy (v : Option ℝ) : Bool :=
  decide (v = none ∨ v = some 0)

/-- Type of the objective passed to the scipy root finders: evaluating
`findIV` at a candidate volatility can itself raise. -/
abbrev RootObjective := ℝ → Except String ℝ

/-- `scipy.optimize.brentq(f, a, b)` as an abstract collaborator. -/
abbrev Brentq := RootObjective → ℝ → ℝ → Except String ℝ

/-- `scipy.optimize.newton(f, guess)` as an abstract collaborator. -/
abbrev Newton := RootObjective → ℝ → Except String ℝ

/-- `py_vollib...implied_volatility(price, S, K, t, r, flag)` as an abstract
collaborator (it raises e.g. `BelowIntrinsicException` on deep-ITM inputs). -/
abbrev FastIV := Option ℝ → ℝ → ℝ → ℝ → ℝ → Char → Except String ℝ

/-- The closure `findIV(iv)` from `ivFromOptionAuto`: computes
`optionNPV(kind, underlying, strike, expiry, iv).item() - option.npv`.
If `option.npv` is `None` the subtraction raises `TypeError`. -/
noncomputable def findIV (opt : OptionRecord) : RootObjective := fun iv =>
  match optionNPV opt.kind opt.underlying opt.strike opt.expiry iv BASE_RATE with
  | .error e => .error e
  | .ok v =>
    match opt.npv with
    | none => .error "TypeError: unsupported operand for -: float and NoneType"
    | some p => .ok (v - p)

/-- Embedding of `ivFromOptionAuto(option, guess=0)`.  A truthy (nonzero)
`guess` selects `optimize.newton`, whose failures propagate; otherwise
`optimize.brentq(findIV, 0, 5000)` runs inside `try:`, and any failure is
swallowed by storing `iv = 0`.  Returns the updated record paired with the
returned `option.iv` scalar. -/
noncomputable def ivFromOptionAuto (brentq : Brentq) (newton : Newton)
    (opt : OptionRecord) (guess : ℝ := 0) : Except String (OptionRecord × ℝ) :=
  if guess = 0 then
    match brentq (findIV opt) 0 5000 with
    | .ok x => .ok ({ opt with iv := some x }, x)
    | .error _ => .ok ({ opt with iv := some 0 }, 0)
  else
    match newton (findIV opt) guess with
    | .ok x => .ok ({ opt with iv := some x }, x)
    | .error e => .error e

/-- The `try:` body of `ivFromOptionFast`: `option.kind[0]` can raise
`IndexError` (inside the `try`), otherwise py_vollib is called with the
lowercased flag character. -/
noncomputable def fastAttempt (fastiv : FastIV) (opt : OptionRecord) :
    Except String ℝ :=
  match opt.kind.toList.head? with
  | none => .error "IndexError: string index out of range"
  | some c =>
    fastiv opt.npv opt.underlying opt.strike opt.expiry BASE_RATE c.toLower

/-- Embedding of `ivFromOptionFast(option)`: on any exception from the fast
analytical inversion, fall back to `ivFromOptionAuto(option)` (no guess). -/
noncomputable def ivFromOptionFast (fastiv : FastIV) (brentq : Brentq)
    (newton : Newton) (opt : OptionRecord) : Except String (OptionRecord × ℝ) :=
  match fastAttempt fastiv opt with
  | .ok x => .ok ({ opt with iv := some x }, x)
  | .error _ => ivFromOptionAuto brentq newton opt 0

/-- C5: with no guess, the auto IV solver calls the bracketed root finder on
`findIV` over the bracket `(0, 5000)`; it never raises (first conjunct), on
any bracketing failure it stores and returns the sentinel `iv = 0` (second
conjunct), and when the root finder succeeds — for any root finder that
actually returns a zero of the objective — the stored sigma reproduces the
observed `npv` through the valuation function (third conjunct). -/
theorem C5_auto_iv_never_raises (brentq : Brentq) (newton : Newton)
    (opt : OptionRecord)
    (hconf : ∀ f a b x, brentq f a b = .ok x → f x = .ok 0) :
    (∃ res, ivFromOptionAuto brentq newton opt 0 = .ok res) ∧
    (∀ e, brentq (findIV opt) 0 5000 = .error e →
      ivFromOptionAuto brentq newton opt 0 = .ok ({ opt with iv := some 0 }, 0)) ∧
    (∀ x, brentq (findIV opt) 0 5000 = .ok x →
      ivFromOptionAuto brentq newton opt 0 = .ok ({ opt with iv := some x }, x) ∧
      ∀ p, opt.npv = some p →
        optionNPV opt.kind opt.underlying opt.strike opt.expiry x BASE_RATE =
          .ok p) := by
  refine ⟨?_, ?_, ?_⟩
  · unfold ivFromOptionAuto
    rw [if_pos rfl]
    cases h : brentq (findIV opt) 0 5000 <;> exact ⟨_, rfl⟩
  · intro e he
    unfold ivFromOptionAuto
    rw [if_pos rfl, he]
  · intro x hx
    have hroot : findIV opt x = .ok 0 := hconf _ _ _ _ hx
    constructor
    · unfold ivFromOptionAuto
      rw [if_pos rfl, hx]
    · intro p hp
      unfold findIV at hroot
      rw [hp] at hroot
      cases hnpv : optionNPV opt.kind opt.underlying opt.strike opt.expiry x
          BASE_RATE with
      | error e => rw [hnpv] at hroot; exact absurd hroot (by simp)
      | ok v =>
        rw [hnpv] at hroot
        simp only [Except.ok.injEq] at hroot
        rw [hnpv, sub_eq_zero] at *
        exact congrArg Except.ok hroot

/-- Witness for C5: a root finder that always fails to bracket, on a concrete
option record; the auto path returns the sentinel 0 without raising. -/
theorem C5_auto_iv_never_raises_witness :
    (∃ res, ivFromOptionAuto (fun _ _ _ => .error "no sign change")
        (fun _ _ => .error "diverged")
        ⟨"call", 100, 100, 1, none, some 5, none⟩ 0 = .ok res) ∧
    (∀ e, (fun (_ : RootObjective) (_ _ : ℝ) =>
          (.error "no sign change" : Except String ℝ))
          (findIV ⟨"call", 100, 100, 1, none, some 5, none⟩) 0 5000 = .error e →
      ivFromOptionAuto (fun _ _ _ => .error "no sign change")
        (fun _ _ => .error "diverged")
        ⟨"call", 100, 100, 1, none, some 5, none⟩ 0 =
        .ok ({ (⟨"call", 100, 100, 1, none, some 5, none⟩ : OptionRecord) with
                iv := some 0 }, 0)) ∧
    (∀ x, (fun (_ : RootObjective) (_ _ : ℝ) =>
          (.error "no sign change" : Except String ℝ))
          (findIV ⟨"call", 100, 100, 1, none, some 5, none⟩) 0 5000 = .ok x →
      ivFromOptionAuto (fun _ _ _ => .error "no sign change")
        (fun _ _ => .error "diverged")
        ⟨"call", 100, 100, 1, none, some 5, none⟩ 0 =
        .ok ({ (⟨"call", 100, 100, 1, none, some 5, none⟩ : OptionRecord) with
                iv := some x }, x) ∧
      ∀ p, (⟨"call", 100, 100, 1, none, some 5, none⟩ : OptionRecord).npv =
          some p →
        optionNPV "call" 100 100 1 x BASE_RATE = .ok p) :=
  C5_auto_iv_never_raises (fun _ _ _ => .error "no sign change")
    (fun _ _ => .error "diverged") ⟨"call", 100, 100, 1, none, some 5, none⟩
    (fun f a b x h => absurd h (by simp))

/-- C6: whenever the fast analytical IV inversion raises, `ivFromOptionFast`
does not propagate the failure but produces exactly the result of running the
auto root-finding path on the same record (so the stored and returned sigma
coincide with those of the auto path — here with equality, not just tolerance). -/
theorem C6_fast_iv_falls_back (fastiv : FastIV) (brentq : Brentq)
    (newton : Newton) (opt : OptionRecord) (e : String)
    (hfail : fastAttempt fastiv opt = .error e) :
    ivFromOptionFast fastiv brentq newton opt =
      ivFromOptionAuto brentq newton opt 0 := by
  unfold ivFromOptionFast
  rw [hfail]

/-- Witness for C6: a fast inverter that raises `BelowIntrinsicException` on a
concrete deep-ITM-style record; the result equals the direct auto-path run. -/
theorem C6_fast_iv_falls_back_witness :
    ivFromOptionFast (fun _ _ _ _ _ _ => .error "BelowIntrinsicException")
      (fun _ _ _ => .error "no sign change") (fun _ _ => .error "diverged")
      ⟨"call", 100, 50, 1, none, some 30, none⟩ =
    ivFromOptionAuto (fun _ _ _ => .error "no sign change")
      (fun _ _ => .error "diverged")
      ⟨"call", 100, 50, 1, none, some 30, none⟩ 0 :=
  C6_fast_iv_falls_back (fun _ _ _ _ _ _ => .error "BelowIntrinsicException")
    (fun _ _ _ => .error "no sign change") (fun _ _ => .error "diverged")
    ⟨"call", 100, 50, 1, none, some 30, none⟩ "BelowIntrinsicException" rfl

/-! ## Orchestration entry points -/

/-- The message of the `assert option.npv` failure in both entry points. -/
def missingInputMsg : String :=
  "AssertionError: if you do not provide iv you need to provide current npv"

/-- The message of the `assert flag == "c" or flag == "p"` failure. -/
def badFlagMsg : String :=
  "AssertionError: why did you give me this flag instead of c or p?"

/-- `py_vollib.black_scholes.greeks.analytical` as an abstract collaborator:
four closed-form first-order Greeks, each taking `(flag, S, K, t, r, sigma)`. -/
structure AnalyticalGreeks where
  theta : Char → ℝ → ℝ → ℝ → ℝ → ℝ → ℝ
  delta : Char → ℝ → ℝ → ℝ → ℝ → ℝ → ℝ
  vega : Char → ℝ → ℝ → ℝ → ℝ → ℝ → ℝ
  gamma : Char → ℝ → ℝ → ℝ → ℝ → ℝ → ℝ

/-- The IV-resolution prelude shared textually by both entry points:
`if not option.iv: assert option.npv; ivFromOption...(option)` — here for the
exact path. -/
noncomputable def resolveIVAuto (brentq : Brentq) (newton : Newton)
    (opt : OptionRecord) : Except String OptionRecord :=
  if falsy opt.iv then
    if falsy opt.npv then .error missingInputMsg
    else
      match ivFromOptionAuto brentq newton opt 0 with
      | .ok (o, _) => .ok o
      | .error e => .error e
  else .ok opt

/-- The IV-resolution prelude of the fast entry point. -/
noncomputable def resolveIVFast (fastiv : FastIV) (brentq : Brentq)
    (newton : Newton) (opt : OptionRecord) : Except String OptionRecord :=
  if falsy opt.iv then
    if falsy opt.npv then .error missingInputMsg
    else
      match ivFromOptionFast fastiv brentq newton opt with
      | .ok (o, _) => .ok o
      | .error e => .error e
  else .ok opt

/-- Embedding of `optionGreeksAuto(option, calculateNPV=True)`: resolve IV if
absent, compute `(npv, theta, delta, vega)` with `deriveGreeks1` and gamma
with `deriveGreeks2` (default `which=[0]`), then populate the record.  After
IV resolution `option.iv` is a float, embedded as `Option.getD _ 0` (the
default is never used: the field is always `some` there). -/
noncomputable def optionGreeksAuto (brentq : Brentq) (newton : Newton)
    (opt : OptionRecord) (calculateNPV : Bool := true) :
    Except String OptionRecord :=
  match resolveIVAuto brentq newton opt with
  | .error e => .error e
  | .ok o =>
    match deriveGreeks1 o.kind o.underlying o.strike o.expiry (o.iv.getD 0)
        BASE_RATE with
    | .error e => .error e
    | .ok (npv, theta, delta, vega) =>
      match deriveGreeks2 o.kind o.underlying o.strike o.expiry (o.iv.getD 0)
          BASE_RATE [0] with
      | .error e => .error e
      | .ok [some gamma] =>
        if calculateNPV then
          .ok { o with npv := some npv, greeks := some ⟨theta, delta, gamma, vega⟩ }
        else .ok { o with greeks := some ⟨theta, delta, gamma, vega⟩ }
      | .ok _ => .error "unreachable: destructuring (gamma,) = deriveGreeks2(...)"

/-- Embedding of `optionGreeksFast(option, calculateNPV=True)`: resolve IV via
the fast path if absent; recompute `npv` through `optionNPV` inside a `try:`
whose failures leave `npv` as previously set; validate the normalized flag
(fatal `assert` otherwise); compute the four Greeks with the analytical
py_vollib collaborator. -/
noncomputable def optionGreeksFast (fastiv : FastIV) (brentq : Brentq)
    (newton : Newton) (ga : AnalyticalGreeks) (opt : OptionRecord)
    (calculateNPV : Bool := true) : Except String OptionRecord :=
  match resolveIVFast fastiv brentq newton opt with
  | .error e => .error e
  | .ok o =>
    let o2 :=
      if calculateNPV then
        match optionNPV o.kind o.underlying o.strike o.expiry (o.iv.getD 0)
            BASE_RATE with
        | .ok v => { o with npv := some v }
        | .error _ => o
      else o
    match o2.kind.toList.head? with
    | none => .error "IndexError: string index out of range"
    | some c =>
      if c.toLower = 'c' ∨ c.toLower = 'p' then
        let g : Greeks :=
          ⟨ga.theta c.toLower o2.underlying o2.strike o2.expiry BASE_RATE
             (o2.iv.getD 0),
           ga.delta c.toLower o2.underlying o2.strike o2.expiry BASE_RATE
             (o2.iv.getD 0),
           ga.gamma c.toLower o2.underlying o2.strike o2.expiry BASE_RATE
             (o2.iv.getD 0),
           ga.vega c.toLower o2.underlying o2.strike o2.expiry BASE_RATE
             (o2.iv.getD 0)⟩
        .ok { o2 with greeks := some g }
      else .error badFlagMsg

lemma falsy_none : falsy none = true := by simp [falsy]

lemma falsy_some_zero : falsy (some 0) = true := by simp [falsy]

lemma oga_missing (brentq : Brentq) (newton : Newton) (opt : OptionRecord)
    (b : Bool) (hiv : falsy opt.iv = true) (hnpv : falsy opt.npv = true) :
    optionGreeksAuto brentq newton opt b = .error missingInputMsg := by
  unfold optionGreeksAuto resolveIVAuto
  rw [hiv, hnpv]
  rfl

lemma ogf_missing (fastiv : FastIV) (brentq : Brentq) (newton : Newton)
    (ga : AnalyticalGreeks) (opt : OptionRecord) (b : Bool)
    (hiv : falsy opt.iv = true) (hnpv : falsy opt.npv = true) :
    optionGreeksFast fastiv brentq newton ga opt b = .error missingInputMsg := by
  unfold optionGreeksFast resolveIVFast
  rw [hiv, hnpv]
  rfl

/-- C7: if both `iv` and `npv` are absent (Python-falsy), each orchestration
entry point fails with the missing-input assertion error: no Greeks are
computed and nothing is defaulted. -/
theorem C7_missing_input_is_fatal (brentq : Brentq) (newton : Newton)
    (fastiv : FastIV) (ga : AnalyticalGreeks) (opt : OptionRecord) (b : Bool)
    (hiv : opt.iv = none) (hnpv : opt.npv = none) :
    optionGreeksAuto brentq newton opt b = .error missingInputMsg ∧
    optionGreeksFast fastiv brentq newton ga opt b = .error missingInputMsg :=
  ⟨oga_missing brentq newton opt b (hiv ▸ falsy_none) (hnpv ▸ falsy_none),
   ogf_missing fastiv brentq newton ga opt b (hiv ▸ falsy_none)
     (hnpv ▸ falsy_none)⟩

/-- Witness for C7 on a concrete record with neither `iv` nor `npv`. -/
theorem C7_missing_input_is_fatal_witness :
    optionGreeksAuto (fun _ _ _ => .error "e") (fun _ _ => .error "e")
      ⟨"call", 100, 100, 1, none, none, none⟩ true = .error missingInputMsg ∧
    optionGreeksFast (fun _ _ _ _ _ _ => .error "e") (fun _ _ _ => .error "e")
      (fun _ _ => .error "e") ⟨fun _ _ _ _ _ _ => 0, fun _ _ _ _ _ _ => 0,
        fun _ _ _ _ _ _ => 0, fun _ _ _ _ _ _ => 0⟩
      ⟨"call", 100, 100, 1, none, none, none⟩ true = .error missingInputMsg :=
  C7_missing_input_is_fatal (fun _ _ _ => .error "e") (fun _ _ => .error "e")
    (fun _ _ _ _ _ _ => .error "e")
    ⟨fun _ _ _ _ _ _ => 0, fun _ _ _ _ _ _ => 0, fun _ _ _ _ _ _ => 0,
      fun _ _ _ _ _ _ => 0⟩
    ⟨"call", 100, 100, 1, none, none, none⟩ true rfl rfl

/-! ## The iv field is write-only for the solvers: truthiness of `iv = 0` -/

lemma ivAuto_iv_irrel (brentq : Brentq) (newton : Newton) (opt : OptionRecord)
    (v : Option ℝ) (g : ℝ) :
    ivFromOptionAuto brentq newton { opt with iv := v } g =
      ivFromOptionAuto brentq newton opt g := rfl

lemma ivFast_iv_irrel (fastiv : FastIV) (brentq : Brentq) (newton : Newton)
    (opt : OptionRecord) (v : Option ℝ) :
    ivFromOptionFast fastiv brentq newton { opt with iv := v } =
      ivFromOptionFast fastiv brentq newton opt := rfl

lemma resolveIVAuto_zero_eq_none (brentq : Brentq) (newton : Newton)
    (opt : OptionRecord) (hiv : opt.iv = some 0) :
    resolveIVAuto brentq newton opt =
      resolveIVAuto brentq newton { opt with iv := none } := by
  unfold resolveIVAuto
  rw [hiv]
  simp only [falsy_some_zero, falsy_none, if_true, ivAuto_iv_irrel]

lemma resolveIVFast_zero_eq_none (fastiv : FastIV) (brentq : Brentq)
    (newton : Newton) (opt : OptionRecord) (hiv : opt.iv = some 0) :
    resolveIVFast fastiv brentq newton opt =
      resolveIVFast fastiv brentq newton { opt with iv := none } := by
  unfold resolveIVFast
  rw [hiv]
  simp only [falsy_some_zero, falsy_none, if_true, ivFast_iv_irrel]

lemma oga_congr (brentq : Brentq) (newton : Newton) (o1 o2 : OptionRecord)
    (b : Bool) (h : resolveIVAuto brentq newton o1 = resolveIVAuto brentq newton o2) :
    optionGreeksAuto brentq newton o1 b = optionGreeksAuto brentq newton o2 b := by
  unfold optionGreeksAuto
  rw [h]

lemma ogf_congr (fastiv : FastIV) (brentq : Brentq) (newton : Newton)
    (ga : AnalyticalGreeks) (o1 o2 : OptionRecord) (b : Bool)
    (h : resolveIVFast fastiv brentq newton o1 =
      resolveIVFast fastiv brentq newton o2) :
    optionGreeksFast fastiv brentq newton ga o1 b =
      optionGreeksFast fastiv brentq newton ga o2 b := by
  unfold optionGreeksFast
  rw [h]

/-- C9 (implicit): a stored `iv` of exactly 0 (e.g. the sentinel left by a
failed bracketed search) is Python-falsy, so both entry points behave exactly
as if `iv` were absent — they re-derive it from `npv` — and when `npv` is
also absent or exactly 0 they raise the missing-input assertion error. -/
theorem C9_zero_iv_treated_as_absent (brentq : Brentq) (newton : Newton)
    (fastiv : FastIV) (ga : AnalyticalGreeks) (opt : OptionRecord) (b : Bool)
    (hiv : opt.iv = some 0) :
    optionGreeksAuto brentq newton opt b =
      optionGreeksAuto brentq newton { opt with iv := none } b ∧
    optionGreeksFast fastiv brentq newton ga opt b =
      optionGreeksFast fastiv brentq newton ga { opt with iv := none } b ∧
    (opt.npv = none ∨ opt.npv = some 0 →
      optionGreeksAuto brentq newton opt b = .error missingInputMsg ∧
      optionGreeksFast fastiv brentq newton ga opt b = .error missingInputMsg) := by
  refine ⟨oga_congr _ _ _ _ _ (resolveIVAuto_zero_eq_none _ _ _ hiv),
          ogf_congr _ _ _ _ _ _ _ (resolveIVFast_zero_eq_none _ _ _ _ hiv),
          fun hnpv => ?_⟩
  have h1 : falsy opt.iv = true := by rw [hiv]; exact falsy_some_zero
  have h2 : falsy opt.npv = true := by simp [falsy, hnpv]
  exact ⟨oga_missing _ _ _ _ h1 h2, ogf_missing _ _ _ _ _ _ h1 h2⟩

/-- Witness for C9 on a concrete record with `iv = 0` and `npv` absent. -/
theorem C9_zero_iv_treated_as_absent_witness :
    optionGreeksAuto (fun _ _ _ => .error "e") (fun _ _ => .error "e")
      ⟨"call", 100, 100, 1, some 0, none, none⟩ true =
      optionGreeksAuto (fun _ _ _ => .error "e") (fun _ _ => .error "e")
        { (⟨"call", 100, 100, 1, some 0, none, none⟩ : OptionRecord) with
          iv := none } true ∧
    optionGreeksFast (fun _ _ _ _ _ _ => .error "e") (fun _ _ _ => .error "e")
      (fun _ _ => .error "e") ⟨fun _ _ _ _ _ _ => 0, fun _ _ _ _ _ _ => 0,
        fun _ _ _ _ _ _ => 0, fun _ _ _ _ _ _ => 0⟩
      ⟨"call", 100, 100, 1, some 0, none, none⟩ true =
      optionGreeksFast (fun _ _ _ _ _ _ => .error "e") (fun _ _ _ => .error "e")
        (fun _ _ => .error "e") ⟨fun _ _ _ _ _ _ => 0, fun _ _ _ _ _ _ => 0,
          fun _ _ _ _ _ _ => 0, fun _ _ _ _ _ _ => 0⟩
        { (⟨"call", 100, 100, 1, some 0, none, none⟩ : OptionRecord) with
          iv := none } true ∧
    ((⟨"call", 100, 100, 1, some 0, none, none⟩ : OptionRecord).npv = none ∨
      (⟨"call", 100, 100, 1, some 0, none, none⟩ : OptionRecord).npv = some 0 →
      optionGreeksAuto (fun _ _ _ => .error "e") (fun _ _ => .error "e")
        ⟨"call", 100, 100, 1, some 0, none, none⟩ true = .error missingInputMsg ∧
      optionGreeksFast (fun _ _ _ _ _ _ => .error "e") (fun _ _ _ => .error "e")
        (fun _ _ => .error "e") ⟨fun _ _ _ _ _ _ => 0, fun _ _ _ _ _ _ => 0,
          fun _ _ _ _ _ _ => 0, fun _ _ _ _ _ _ => 0⟩
        ⟨"call", 100, 100, 1, some 0, none, none⟩ true = .error missingInputMsg) :=
  C9_zero_iv_treated_as_absent (fun _ _ _ => .error "e") (fun _ _ => .error "e")
    (fun _ _ _ _ _ _ => .error "e")
    ⟨fun _ _ _ _ _ _ => 0, fun _ _ _ _ _ _ => 0, fun _ _ _ _ _ _ => 0,
      fun _ _ _ _ _ _ => 0⟩
    ⟨"call", 100, 100, 1, some 0, none, none⟩ true rfl

/-! ## Frame conditions: kind/underlying/strike/expiry are never reassigned -/

/-- The input fields of the record: everything except `iv`, `npv`, `greeks`. -/
def sameCore (a b : OptionRecord) : Prop :=
  b.kind = a.kind ∧ b.underlying = a.underlying ∧ b.strike = a.strike ∧
    b.expiry = a.expiry

/-- Frame condition for the IV solvers: if no exception is raised, the
returned record agrees with the input on the core fields and the returned
scalar is exactly the stored `iv`. -/
def frameOkIv (opt : OptionRecord) : Except String (OptionRecord × ℝ) → Prop
  | .ok (o, x) => sameCore opt o ∧ o.iv = some x
  | .error _ => True

/-- Frame condition for the orchestration entry points. -/
def frameOkOpt (opt : OptionRecord) : Except String OptionRecord → Prop
  | .ok o => sameCore opt o
  | .error _ => True

lemma ivAuto_frame (brentq : Brentq) (newton : Newton) (opt : OptionRecord)
    (g : ℝ) : frameOkIv opt (ivFromOptionAuto brentq newton opt g) := by
  unfold ivFromOptionAuto
  split
  · cases brentq (findIV opt) 0 5000 with
    | ok x => exact ⟨⟨rfl, rfl, rfl, rfl⟩, rfl⟩
    | error e => exact ⟨⟨rfl, rfl, rfl, rfl⟩, rfl⟩
  · cases newton (findIV opt) g with
    | ok x => exact ⟨⟨rfl, rfl, rfl, rfl⟩, rfl⟩
    | error e => trivial

lemma ivFast_frame (fastiv : FastIV) (brentq : Brentq) (newton : Newton)
    (opt : OptionRecord) :
    frameOkIv opt (ivFromOptionFast fastiv brentq newton opt) := by
  unfold ivFromOptionFast
  cases fastAttempt fastiv opt with
  | ok x => exact ⟨⟨rfl, rfl, rfl, rfl⟩, rfl⟩
  | error e => exact ivAuto_frame brentq newton opt 0

lemma resolveIVAuto_frame (brentq : Brentq) (newton : Newton)
    (opt : OptionRecord) : frameOkOpt opt (resolveIVAuto brentq newton opt) := by
  unfold resolveIVAuto
  split
  · split
    · trivial
    · have h := ivAuto_frame brentq newton opt 0
      cases hres : ivFromOptionAuto brentq newton opt 0 with
      | ok p =>
        rw [hres] at h
        obtain ⟨o, x⟩ := p
        exact h.1
      | error e => trivial
  · exact ⟨rfl, rfl, rfl, rfl⟩

lemma resolveIVFast_frame (fastiv : FastIV) (brentq : Brentq) (newton : Newton)
    (opt : OptionRecord) :
    frameOkOpt opt (resolveIVFast fastiv brentq newton opt) := by
  unfold resolveIVFast
  split
  · split
    · trivial
    · have h := ivFast_frame fastiv brentq newton opt
      cases hres : ivFromOptionFast fastiv brentq newton opt with
      | ok p =>
        rw [hres] at h
        obtain ⟨o, x⟩ := p
        exact h.1
      | error e => trivial
  · exact ⟨rfl, rfl, rfl, rfl⟩

lemma oga_frame (brentq : Brentq) (newton : Newton) (opt : OptionRecord)
    (b : Bool) : frameOkOpt opt (optionGreeksAuto brentq newton opt b) := by
  unfold optionGreeksAuto
  have h := resolveIVAuto_frame brentq newton opt
  cases hres : resolveIVAuto brentq newton opt with
  | error e => trivial
  | ok o =>
    rw [hres] at h
    replace h : sameCore opt o := h
    dsimp only
    cases deriveGreeks1 o.kind o.underlying o.strike o.expiry (o.iv.getD 0)
        BASE_RATE with
    | error e => trivial
    | ok q =>
      obtain ⟨npv, theta, delta, vega⟩ := q
      dsimp only
      cases deriveGreeks2 o.kind o.underlying o.strike o.expiry (o.iv.getD 0)
          BASE_RATE [0] with
      | error e => trivial
      | ok l =>
        cases l with
        | nil => trivial
        | cons hd tl =>
          cases hd with
          | none => trivial
          | some gm =>
            cases tl with
            | cons h2 t2 => trivial
            | nil =>
              cases b with
              | true => exact h
              | false => exact h

lemma ogf_frame (fastiv : FastIV) (brentq : Brentq) (newton : Newton)
    (ga : AnalyticalGreeks) (opt : OptionRecord) (b : Bool) :
    frameOkOpt opt (optionGreeksFast fastiv brentq newton ga opt b) := by
  unfold optionGreeksFast
  have h := resolveIVFast_frame fastiv brentq newton opt
  cases hres : resolveIVFast fastiv brentq newton opt with
  | error e => trivial
  | ok o =>
    rw [hres] at h
    replace h : sameCore opt o := h
    dsimp only
    cases b with
    | false =>
      rw [if_neg Bool.false_ne_true]
      cases o.kind.toList.head? with
      | none => trivial
      | some c =>
        dsimp only
        split
        · exact h
        · trivial
    | true =>
      rw [if_pos rfl]
      cases optionNPV o.kind o.underlying o.strike o.expiry (o.iv.getD 0)
          BASE_RATE with
      | error e =>
        cases o.kind.toList.head? with
        | none => trivial
        | some c =>
          dsimp only
          split
          · exact h
          · trivial
      | ok v =>
        dsimp only
        cases o.kind.toList.head? with
        | none => trivial
        | some c =>
          dsimp only
          split
          · exact h
          · trivial

/-- C10 (implicit): none of the four public operations ever changes the
fields `kind`, `underlying`, `strike`, `expiry` of the record; only `iv`, `npv`,
`greeks` are assigned, and each IV solver returns exactly the scalar it just
stored in the `iv` field of the record.  This holds for every behaviour of the
external root-finding / analytical collaborators. -/
theorem C10_core_fields_preserved (brentq : Brentq) (newton : Newton)
    (fastiv : FastIV) (ga : AnalyticalGreeks) (opt : OptionRecord) (g : ℝ)
    (b : Bool) :
    frameOkIv opt (ivFromOptionAuto brentq newton opt g) ∧
    frameOkIv opt (ivFromOptionFast fastiv brentq newton opt) ∧
    frameOkOpt opt (optionGreeksAuto brentq newton opt b) ∧
    frameOkOpt opt (optionGreeksFast fastiv brentq newton ga opt b) :=
  ⟨ivAuto_frame brentq newton opt g, ivFast_frame fastiv brentq newton opt,
   oga_frame brentq newton opt b, ogf_frame fastiv brentq newton ga opt b⟩

/-! ## The standard normal CDF is symmetric: `Phi x + Phi (-x) = 1` -/

lemma gaussKernel_eq :
    (fun t : ℝ => Real.exp (-(t ^ 2) / 2)) = fun t : ℝ => Real.exp (-(1 / 2 : ℝ) * t ^ 2) := by
  funext t
  congr 1
  ring

lemma gaussKernel_integrable :
    Integrable (fun t : ℝ => Real.exp (-(t ^ 2) / 2)) := by
  rw [gaussKernel_eq]
  exact integrable_exp_neg_mul_sq (by norm_num)

lemma gaussKernel_total :
    ∫ t : ℝ, Real.exp (-(t ^ 2) / 2) = Real.sqrt (2 * Real.pi) := by
  rw [gaussKernel_eq, integral_gaussian]
  congr 1
  rw [div_div_eq_mul_div]
  norm_num
  ring

lemma sqrt_two_pi_pos : 0 < Real.sqrt (2 * Real.pi) :=
  Real.sqrt_pos.mpr (by positivity)

lemma integral_Iic_neg_gaussKernel (x : ℝ) :
    (∫ t in Set.Iic (-x), Real.exp (-(t ^ 2) / 2)) =
      ∫ t in Set.Ioi x, Real.exp (-(t ^ 2) / 2) := by
  have h := integral_comp_neg_Iic (-x) (fun t : ℝ => Real.exp (-(t ^ 2) / 2))
  simp only [neg_neg] at h
  rw [← h]
  congr 1
  funext t
  congr 1
  ring

lemma Phi_add_neg (x : ℝ) : Phi x + Phi (-x) = 1 := by
  unfold Phi
  rw [div_add_div_same, integral_Iic_neg_gaussKernel]
  rw [← setIntegral_union (Set.Iic_disjoint_Ioi le_rfl) measurableSet_Ioi
        gaussKernel_integrable.integrableOn gaussKernel_integrable.integrableOn,
      Set.Iic_union_Ioi, Measure.restrict_univ, gaussKernel_total]
  exact div_self (ne_of_gt sqrt_two_pi_pos)

/-- C8: put-call parity.  For positive S, K, T, sigma, r the call valuation
minus the put valuation equals `S − K·e^(−rT)` (exactly, in the real-number
model; the "floating tolerance" of the claim is only about float rounding). -/
theorem C8_put_call_parity (S K T sigma r : ℝ)
    (hS : 0 < S) (hK : 0 < K) (hT : 0 < T) (hsigma : 0 < sigma) (hr : 0 < r) :
    blackScholes_pyTorch "call" S K T sigma r = .ok (bsPrice true S K T sigma r) ∧
    blackScholes_pyTorch "put" S K T sigma r = .ok (bsPrice false S K T sigma r) ∧
    bsPrice true S K T sigma r - bsPrice false S K T sigma r =
      S - K * Real.exp (-r * T) := by
  refine ⟨rfl, rfl, ?_⟩
  have h1 := Phi_add_neg (d1 S K T sigma r)
  have h2 := Phi_add_neg (d2 S K T sigma r)
  simp only [bsPrice]
  linear_combination S * h1 - K * Real.exp (-r * T) * h2

/-- Witness for C8 at S = K = T = sigma = r = 1. -/
theorem C8_put_call_parity_witness :
    blackScholes_pyTorch "call" 1 1 1 1 1 = .ok (bsPrice true 1 1 1 1 1) ∧
    blackScholes_pyTorch "put" 1 1 1 1 1 = .ok (bsPrice false 1 1 1 1 1) ∧
    bsPrice true 1 1 1 1 1 - bsPrice false 1 1 1 1 1 =
      1 - 1 * Real.exp (-1 * 1) :=
  C8_put_call_parity 1 1 1 1 1 one_pos one_pos one_pos one_pos one_pos

/-! ## Kind validation (C4) -/

/-- C4 counterexample: the valuation function does NOT raise on a kind whose
first character is neither `c` nor `p` — `"x"` is silently priced as a put
(the `else` branch), exactly like kind `"put"`. -/
theorem C4_counterexample_kind_x_is_put :
    blackScholes_pyTorch "x" 100 100 1 (1 / 2) (1 / 100) =
      .ok (bsPrice false 100 100 1 (1 / 2) (1 / 100)) ∧
    blackScholes_pyTorch "x" 100 100 1 (1 / 2) (1 / 100) =
      blackScholes_pyTorch "put" 100 100 1 (1 / 2) (1 / 100) :=
  ⟨rfl, rfl⟩

/-- C4 (amended): only the fast-mode entry point validates the kind — for a
record whose kind starts with a character that lowercases to neither `c` nor
`p` (and whose iv is present, so control reaches the flag assert),
`optionGreeksFast` raises the fatal assertion error; the valuation function
itself never raises on such a kind and silently prices it as a put. -/
theorem C4_amended_only_fast_validates_kind (fastiv : FastIV) (brentq : Brentq)
    (newton : Newton) (ga : AnalyticalGreeks) (opt : OptionRecord) (b : Bool)
    (c : Char) (hc : opt.kind.toList.head? = some c)
    (hnc : c.toLower ≠ 'c') (hnp : c.toLower ≠ 'p')
    (hiv : falsy opt.iv = false) (S K T sigma r : ℝ) :
    blackScholes_pyTorch opt.kind S K T sigma r =
      .ok (bsPrice false S K T sigma r) ∧
    optionGreeksFast fastiv brentq newton ga opt b = .error badFlagMsg := by
  have hclass : classifyKind opt.kind = some false := by
    unfold classifyKind
    rw [hc]
    simp [hnc]
  have hflag : ¬(c.toLower = 'c' ∨ c.toLower = 'p') := by
    intro hor
    cases hor with
    | inl h => exact hnc h
    | inr h => exact hnp h
  constructor
  · unfold blackScholes_pyTorch
    rw [hclass]
  · unfold optionGreeksFast resolveIVFast
    rw [hiv, if_neg Bool.false_ne_true]
    dsimp only
    cases b with
    | false =>
      rw [if_neg Bool.false_ne_true]
      rw [hc]
      dsimp only
      rw [if_neg hflag]
    | true =>
      rw [if_pos rfl]
      cases optionNPV opt.kind opt.underlying opt.strike opt.expiry
          (opt.iv.getD 0) BASE_RATE with
      | error e =>
        rw [hc]
        dsimp only
        rw [if_neg hflag]
      | ok v =>
        dsimp only
        rw [hc]
        dsimp only
        rw [if_neg hflag]

/-- Witness for the amended C4 at a concrete record of kind `"x"`. -/
theorem C4_amended_only_fast_validates_kind_witness :
    blackScholes_pyTorch
      (⟨"x", 100, 100, 1, some 1, none, none⟩ : OptionRecord).kind 1 1 1 1 1 =
      .ok (bsPrice false 1 1 1 1 1) ∧
    optionGreeksFast (fun _ _ _ _ _ _ => .error "e") (fun _ _ _ => .error "e")
      (fun _ _ => .error "e") ⟨fun _ _ _ _ _ _ => 0, fun _ _ _ _ _ _ => 0,
        fun _ _ _ _ _ _ => 0, fun _ _ _ _ _ _ => 0⟩
      ⟨"x", 100, 100, 1, some 1, none, none⟩ true = .error badFlagMsg :=
  C4_amended_only_fast_validates_kind (fun _ _ _ _ _ _ => .error "e")
    (fun _ _ _ => .error "e") (fun _ _ => .error "e")
    ⟨fun _ _ _ _ _ _ => 0, fun _ _ _ _ _ _ => 0, fun _ _ _ _ _ _ => 0,
      fun _ _ _ _ _ _ => 0⟩
    ⟨"x", 100, 100, 1, some 1, none, none⟩ true 'x' rfl (by decide) (by decide)
    (by simp [falsy]) 1 1 1 1 1

end Pygreeks
